import Mathlib

/-!
Shallow embedding of `src/vm.rs` (an LC-3-style virtual machine core).

Machine words are modelled as `Nat` values kept below `2 ^ 16`; Rust `u16`
arithmetic with the `+` operator is modelled by `checkedAdd`, which returns a
`PanicReason.arithmeticOverflow` when the mathematical sum does not fit in 16
bits (Rust's debug-build overflow check).  The two `unreachable!()` sites in
`vm.rs` (the decoder's catch-all arm and the executor's catch-all arm) are
modelled by `PanicReason.unreachableCode`, and the slice-range panic of
`Memory::load`'s `self.ram[start..end]` indexing by
`PanicReason.sliceIndexOutOfBounds`.  A `Panic` is a process abort, not a
recoverable error value: the Rust functions return `()` and unwind.
-/

namespace LC3

/-- The three ways the Rust code can panic. -/
inductive PanicReason where
  | unreachableCode
  | arithmeticOverflow
  | sliceIndexOutOfBounds
deriving DecidableEq

/-- `const MEMORY_SIZE: usize = 1 << 16;` -/
def MEMORY_SIZE : Nat := 1 <<< 16

/-- Rust `u16 + u16` (debug semantics): panics when the sum overflows 16 bits,
otherwise returns the sum. -/
def checkedAdd (a b : Nat) : Except PanicReason Nat :=
  if a + b < MEMORY_SIZE then .ok (a + b) else .error .arithmeticOverflow

/-- `struct Memory { ram: [u16; MEMORY_SIZE] }`, modelled as a total map from
addresses to words. -/
structure Memory where
  ram : Nat → Nat

/-- `Memory::new`: zero-initialized RAM. -/
def Memory.new : Memory := ⟨fun _ => 0⟩

/-- `impl Index<u16> for Memory` (a `u16` index is always in range). -/
def Memory.read (m : Memory) (a : Nat) : Nat := m.ram a

/-- `impl IndexMut<u16> for Memory` used as a single-word store. -/
def Memory.write (m : Memory) (a v : Nat) : Memory :=
  ⟨fun x => if x = a then v else m.ram x⟩

/-- `Memory::load`: `self.ram[start..end].copy_from_slice(block)` with
`start = offset`, `end = offset + block.len()`.  When `end` exceeds
`MEMORY_SIZE` the slice indexing panics before any word is written; otherwise
the target range is overwritten and all other memory is untouched. -/
def Memory.load (m : Memory) (block : List Nat) (offset : Nat) :
    Except PanicReason Memory :=
  if offset + block.length ≤ MEMORY_SIZE then
    .ok ⟨fun a =>
      if offset ≤ a ∧ a < offset + block.length then block.getD (a - offset) 0
      else m.ram a⟩
  else .error .sliceIndexOutOfBounds

/-- `const REGISTER_COUNT: usize = 10;` -/
def REGISTER_COUNT : Nat := 10

/-- `const REG_PC: RegisterIndex = RegisterIndex(8);` -/
def REG_PC : Nat := 8

/-- `const REG_COND: RegisterIndex = RegisterIndex(9);` -/
def REG_COND : Nat := 9

/-- `struct RegisterCluster { registers: [u16; REGISTER_COUNT] }`, modelled as
a total map from register indices to words. -/
structure RegisterCluster where
  registers : Nat → Nat

/-- `RegisterCluster::default`: all ten registers zero. -/
def RegisterCluster.default : RegisterCluster := ⟨fun _ => 0⟩

/-- `impl Index<RegisterIndex> for RegisterCluster`. -/
def RegisterCluster.read (c : RegisterCluster) (i : Nat) : Nat := c.registers i

/-- `impl IndexMut<RegisterIndex> for RegisterCluster` used as a store. -/
def RegisterCluster.write (c : RegisterCluster) (i v : Nat) : RegisterCluster :=
  ⟨fun r => if r = i then v else c.registers r⟩

/-- `BitTool::use_immediate_mode`: `0b0000_0000_0001_0000 & self == 0b0000_0000_0001_0000`. -/
def use_immediate_mode (w : Nat) : Bool := w &&& 0x10 == 0x10

/-- `BitTool::read_dr`: `(self >> 9) & 0x07`. -/
def read_dr (w : Nat) : Nat := (w >>> 9) &&& 0x07

/-- `BitTool::read_sr1`: `(self >> 5) & 0x07`. -/
def read_sr1 (w : Nat) : Nat := (w >>> 5) &&& 0x07

/-- `BitTool::read_sr2`: `self & 0x07`. -/
def read_sr2 (w : Nat) : Nat := w &&& 0x07

/-- `BitTool::read_imme5`: `self & 0x1f`. -/
def read_imme5 (w : Nat) : Nat := w &&& 0x1f

/-- `BitTool::read_pc_offset9`: `self & 0x7f`. -/
def read_pc_offset9 (w : Nat) : Nat := w &&& 0x7f

/-- `enum Opcode` of `vm.rs`, with the operand fields carried by the four
variants the decoder can actually produce. -/
inductive Opcode where
  | Branch
  | Add (dr sr1 sr2 : Nat)
  | AddImmediate (dr sr1 imm5 : Nat)
  | Load (dr pc_offfset9 : Nat)
  | Store (sr pc_offset9 : Nat)
  | JumpRegister
  | And
  | LoadRegister
  | StoreRegister
  | Unused
  | Not
  | LoadIndirect
  | StoreIndirect
  | Jump
  | Reserved
  | LoadEffectiveAddress
  | Trap
deriving DecidableEq

/-- `impl From<u16> for Opcode`: dispatch on `value >> 12`. The catch-all arm
is `unreachable!()`, i.e. a panic, modelled by `none`. -/
def Opcode.fromWord (w : Nat) : Option Opcode :=
  match w >>> 12 with
  | 1 =>
    some (if use_immediate_mode w then
            .AddImmediate (read_dr w) (read_sr1 w) (read_imme5 w)
          else
            .Add (read_dr w) (read_sr1 w) (read_sr2 w))
  | 2 => some (.Load (read_dr w) (read_pc_offset9 w))
  | 3 => some (.Store (read_dr w) (read_pc_offset9 w))
  | _ => none

/-- `pub struct Machine { mem: Memory, registers: RegisterCluster }`. -/
structure Machine where
  mem : Memory
  registers : RegisterCluster

/-- `Machine::new`. -/
def Machine.new : Machine := ⟨Memory.new, RegisterCluster.default⟩

/-- `Machine::load`, delegating to `Memory::load`. -/
def Machine.load (m : Machine) (block : List Nat) (offset : Nat) :
    Except PanicReason Machine :=
  (m.mem.load block offset).map fun mem => ⟨mem, m.registers⟩

/-- `Machine::step`: fetch the word at `registers[REG_PC]`, do
`registers[REG_PC] += 2`, decode with `Opcode::from`, then dispatch.  Any of
the panics of the Rust code surfaces as an `.error`. -/
def Machine.step (m : Machine) : Except PanicReason Machine :=
  let instr := m.mem.read (m.registers.read REG_PC)
  match checkedAdd (m.registers.read REG_PC) 2 with
  | .error e => .error e
  | .ok pc' =>
    let regs1 := m.registers.write REG_PC pc'
    match Opcode.fromWord instr with
    | some (.Add dr sr1 sr2) =>
      match checkedAdd (regs1.read sr1) (regs1.read sr2) with
      | .error e => .error e
      | .ok v => .ok ⟨m.mem, regs1.write dr v⟩
    | some (.AddImmediate dr sr1 imm5) =>
      match checkedAdd (regs1.read sr1) imm5 with
      | .error e => .error e
      | .ok v => .ok ⟨m.mem, regs1.write dr v⟩
    | some (.Load dr off) =>
      match checkedAdd (regs1.read REG_PC) off with
      | .error e => .error e
      | .ok a => .ok ⟨m.mem, regs1.write dr (m.mem.read a)⟩
    | some (.Store sr off) =>
      match checkedAdd (regs1.read REG_PC) off with
      | .error e => .error e
      | .ok a => .ok ⟨m.mem.write a (regs1.read sr), regs1⟩
    | _ => .error .unreachableCode

/-! ### Concrete machine states used as test vectors -/

/-- `Add R1, R2, R3` (word `0x1243`) at address 0, with `R2 = 3`, `R3 = 4`. -/
def mAdd : Machine :=
  ⟨⟨fun a => if a = 0 then 0x1243 else 0⟩,
   ⟨fun r => if r = 2 then 3 else if r = 3 then 4 else 0⟩⟩

/-- The machine produced by one `step` of `mAdd`. -/
def mAddStepped : Machine :=
  ⟨mAdd.mem, (mAdd.registers.write REG_PC 2).write 1 7⟩

/-- A word with selector `0b1000` at address 0. -/
def mSelector8 : Machine := ⟨⟨fun a => if a = 0 then 0x8000 else 0⟩, ⟨fun _ => 0⟩⟩

/-- A word with selector `0b1101` at address 0. -/
def mSelector13 : Machine := ⟨⟨fun a => if a = 0 then 0xD000 else 0⟩, ⟨fun _ => 0⟩⟩

/-- `Load R0` with 9-bit offset field `0b010000000 = 128` (word `0x2080`) at
address 0; memory holds 5 at address 2, 7 at address 129, 9 at address 130. -/
def mLoadOff : Machine :=
  ⟨⟨fun a => if a = 0 then 0x2080 else if a = 2 then 5
     else if a = 129 then 7 else if a = 130 then 9 else 0⟩,
   ⟨fun _ => 0⟩⟩

/-- `AddImmediate R1, R1, #-1` encoded with the code's own field layout
(word `0x123F`: selector 1, dr = 1, bits 7-5 = 1, immediate field `0b11111`),
with `R1 = 5`. -/
def mAddImm : Machine :=
  ⟨⟨fun a => if a = 0 then 0x123F else 0⟩, ⟨fun r => if r = 1 then 5 else 0⟩⟩

/-- `Add R1, R2, R3` (word `0x1243`) with `R2 = R3 = 0x8000`, whose
mathematical sum `0x10000` does not fit in 16 bits. -/
def mOverflow : Machine :=
  ⟨⟨fun a => if a = 0 then 0x1243 else 0⟩,
   ⟨fun r => if r = 2 then 0x8000 else if r = 3 then 0x8000 else 0⟩⟩

/-! ### Helper lemmas -/

theorem checkedAdd_ok_iff {a b c : Nat} :
    checkedAdd a b = .ok c ↔ a + b < MEMORY_SIZE ∧ c = a + b := by
  unfold checkedAdd
  split
  · simp_all
    omega
  · simp_all

theorem read_dr_lt {w : Nat} : read_dr w < 8 :=
  Nat.lt_succ_of_le Nat.and_le_right

theorem fromWord_Add_inv {w dr sr1 sr2 : Nat}
    (h : Opcode.fromWord w = some (.Add dr sr1 sr2)) :
    dr = read_dr w ∧ sr1 = read_sr1 w ∧ sr2 = read_sr2 w := by
  unfold Opcode.fromWord at h
  split at h
  · split at h <;> simp_all
  · simp_all
  · simp_all
  · simp_all

theorem fromWord_AddImmediate_inv {w dr sr1 imm5 : Nat}
    (h : Opcode.fromWord w = some (.AddImmediate dr sr1 imm5)) :
    dr = read_dr w ∧ sr1 = read_sr1 w ∧ imm5 = read_imme5 w := by
  unfold Opcode.fromWord at h
  split at h
  · split at h <;> simp_all
  · simp_all
  · simp_all
  · simp_all

theorem fromWord_Load_inv {w dr off : Nat}
    (h : Opcode.fromWord w = some (.Load dr off)) :
    dr = read_dr w ∧ off = read_pc_offset9 w := by
  unfold Opcode.fromWord at h
  split at h
  · split at h <;> simp_all
  · simp_all
  · simp_all
  · simp_all

theorem fromWord_Store_inv {w sr off : Nat}
    (h : Opcode.fromWord w = some (.Store sr off)) :
    sr = read_dr w ∧ off = read_pc_offset9 w := by
  unfold Opcode.fromWord at h
  split at h
  · split at h <;> simp_all
  · simp_all
  · simp_all
  · simp_all

/-- Inversion principle for a successful `step`: the PC increment fit in 16
bits, and exactly one of the four implemented opcodes executed, with the
resulting machine spelled out. -/
theorem step_ok_inv {m m' : Machine} (h : Machine.step m = .ok m') :
    m.registers.read REG_PC + 2 < MEMORY_SIZE ∧
    ((∃ dr sr1 sr2,
        Opcode.fromWord (m.mem.read (m.registers.read REG_PC)) = some (.Add dr sr1 sr2) ∧
        m' = ⟨m.mem, ((m.registers.write REG_PC (m.registers.read REG_PC + 2)).write dr
          ((m.registers.write REG_PC (m.registers.read REG_PC + 2)).read sr1 +
           (m.registers.write REG_PC (m.registers.read REG_PC + 2)).read sr2))⟩) ∨
    (∃ dr sr1 imm5,
        Opcode.fromWord (m.mem.read (m.registers.read REG_PC)) = some (.AddImmediate dr sr1 imm5) ∧
        m' = ⟨m.mem, ((m.registers.write REG_PC (m.registers.read REG_PC + 2)).write dr
          ((m.registers.write REG_PC (m.registers.read REG_PC + 2)).read sr1 + imm5))⟩) ∨
    (∃ dr off,
        Opcode.fromWord (m.mem.read (m.registers.read REG_PC)) = some (.Load dr off) ∧
        m' = ⟨m.mem, ((m.registers.write REG_PC (m.registers.read REG_PC + 2)).write dr
          (m.mem.read (m.registers.read REG_PC + 2 + off)))⟩) ∨
    (∃ sr off,
        Opcode.fromWord (m.mem.read (m.registers.read REG_PC)) = some (.Store sr off) ∧
        m' = ⟨m.mem.write (m.registers.read REG_PC + 2 + off)
                ((m.registers.write REG_PC (m.registers.read REG_PC + 2)).read sr),
              (m.registers.write REG_PC (m.registers.read REG_PC + 2))⟩)) := by
  unfold Machine.step at h
  split at h
  · exact absurd h (by simp)
  case _ pc' hpc =>
    obtain ⟨hlt, hpc'⟩ := checkedAdd_ok_iff.mp hpc
    subst hpc'
    refine ⟨hlt, ?_⟩
    simp only [] at h
    split at h
    case _ dr sr1 sr2 hop =>
      split at h
      · exact absurd h (by simp)
      case _ v hv =>
        obtain ⟨_, hv'⟩ := checkedAdd_ok_iff.mp hv
        subst hv'
        exact .inl ⟨dr, sr1, sr2, hop, by injection h with h'; exact h'.symm⟩
    case _ dr sr1 imm5 hop =>
      split at h
      · exact absurd h (by simp)
      case _ v hv =>
        obtain ⟨_, hv'⟩ := checkedAdd_ok_iff.mp hv
        subst hv'
        exact .inr (.inl ⟨dr, sr1, imm5, hop, by injection h with h'; exact h'.symm⟩)
    case _ dr off hop =>
      split at h
      · exact absurd h (by simp)
      case _ a ha =>
        obtain ⟨_, ha'⟩ := checkedAdd_ok_iff.mp ha
        subst ha'
        refine .inr (.inr (.inl ⟨dr, off, hop, ?_⟩))
        injection h with h'
        rw [← h']
        rfl
    case _ sr off hop =>
      split at h
      · exact absurd h (by simp)
      case _ a ha =>
        obtain ⟨_, ha'⟩ := checkedAdd_ok_iff.mp ha
        subst ha'
        refine .inr (.inr (.inr ⟨sr, off, hop, ?_⟩))
        injection h with h'
        rw [← h']
        rfl
    case _ =>
      exact absurd h (by simp)

/-! ### Claim theorems -/

/-- Claim C1, counterexample: decoding is not total.  The words `0x0000`
(selector `0b0000`), `0x8000` (selector `0b1000`) and `0xF000` (selector
`0b1111`) all fall into the decoder's `unreachable!()` arm (modelled by
`none`), contradicting the claim that every 16-bit word decodes to exactly
one `Instruction`. -/
theorem decode_total_cex :
    Opcode.fromWord 0x0000 = none ∧ Opcode.fromWord 0x8000 = none ∧
    Opcode.fromWord 0xF000 = none :=
  ⟨rfl, rfl, rfl⟩

/-- Claim C1, amended: decoding a word succeeds (and, being a pure function,
is deterministic) exactly when its top-4-bit selector is `0b0001`, `0b0010`
or `0b0011`; every other selector panics via `unreachable!()`. -/
theorem decode_isSome_iff_selector (w : Nat) :
    (Opcode.fromWord w).isSome = true ↔
      (w >>> 12 = 1 ∨ w >>> 12 = 2 ∨ w >>> 12 = 3) := by
  unfold Opcode.fromWord
  split <;> simp_all

/-- Claim C2, counterexample: starting from PC = 0, one `step` of an `Add`
instruction leaves PC = 2, not PC = 0 + 1 as the claim's "advance by exactly
one addressable unit" requires. -/
theorem step_pc_increment_cex :
    mAdd.registers.read REG_PC = 0 ∧
    (Machine.step mAdd).map (fun m => m.registers.read REG_PC) = .ok 2 ∧
    (2 : Nat) ≠ 0 + 1 :=
  ⟨rfl, rfl, by decide⟩

/-- Claim C2, amended: every successful `step` advances PC by exactly two
(`self.registers[REG_PC] += 2`) before the instruction body executes, and
PC-relative addressing (the `Load` opcode) is computed against that
already-incremented PC, i.e. against `old PC + 2`. -/
theorem step_pc_advances_by_two (m m' : Machine) (h : Machine.step m = .ok m') :
    m'.registers.read REG_PC = m.registers.read REG_PC + 2 ∧
    (∀ dr off,
      Opcode.fromWord (m.mem.read (m.registers.read REG_PC)) = some (.Load dr off) →
      m'.registers.read dr = m.mem.read (m.registers.read REG_PC + 2 + off)) := by
  obtain ⟨-, hc⟩ := step_ok_inv h
  rcases hc with ⟨dr, sr1, sr2, hop, rfl⟩ | ⟨dr, sr1, imm5, hop, rfl⟩ |
    ⟨dr, off, hop, rfl⟩ | ⟨sr, off, hop, rfl⟩
  · have hdr : dr < 8 := (fromWord_Add_inv hop).1 ▸ read_dr_lt
    constructor
    · simp [RegisterCluster.read, RegisterCluster.write, REG_PC]
      omega
    · intro dr' off' h'
      rw [hop] at h'
      simp at h'
  · have hdr : dr < 8 := (fromWord_AddImmediate_inv hop).1 ▸ read_dr_lt
    constructor
    · simp [RegisterCluster.read, RegisterCluster.write, REG_PC]
      omega
    · intro dr' off' h'
      rw [hop] at h'
      simp at h'
  · have hdr : dr < 8 := (fromWord_Load_inv hop).1 ▸ read_dr_lt
    constructor
    · simp [RegisterCluster.read, RegisterCluster.write, REG_PC]
      omega
    · intro dr' off' h'
      rw [hop] at h'
      simp at h'
      obtain ⟨h1, h2⟩ := h'
      subst h1; subst h2
      simp [RegisterCluster.read, RegisterCluster.write]
  · constructor
    · simp [RegisterCluster.read, RegisterCluster.write, REG_PC]
    · intro dr' off' h'
      rw [hop] at h'
      simp at h'

/-- Claim C2, witness: the amended theorem applied to the concrete `Add`
machine `mAdd`, whose step result is `mAddStepped`. -/
theorem step_pc_advances_by_two_witness :
    mAddStepped.registers.read REG_PC = mAdd.registers.read REG_PC + 2 :=
  (step_pc_advances_by_two mAdd mAddStepped rfl).1

/-- Claim C3, counterexample: on instruction words with selector `0b1000`
(`0x8000`) or `0b1101` (`0xD000`), `step` does not return a recoverable
`IllegalOpcode` result — no such result exists in the code — it panics via
the decoder's `unreachable!()`. -/
theorem step_reserved_cex :
    Machine.step mSelector8 = .error PanicReason.unreachableCode ∧
    Machine.step mSelector13 = .error PanicReason.unreachableCode :=
  ⟨rfl, rfl⟩

/-- Claim C3, amended: whenever the fetched word's selector is `0b1000` or
`0b1101` (and the PC increment itself does not overflow), `step` panics via
`unreachable!()`; no `IllegalOpcode` is reported and no result machine is
produced. -/
theorem step_unrecognized_selector_panics (m : Machine)
    (hsel : (m.mem.read (m.registers.read REG_PC)) >>> 12 = 8 ∨
            (m.mem.read (m.registers.read REG_PC)) >>> 12 = 13)
    (hpc : m.registers.read REG_PC + 2 < MEMORY_SIZE) :
    Machine.step m = .error PanicReason.unreachableCode := by
  have hw : Opcode.fromWord (m.mem.read (m.registers.read REG_PC)) = none := by
    unfold Opcode.fromWord
    rcases hsel with h | h <;> rw [h]
  unfold Machine.step
  rw [show checkedAdd (m.registers.read REG_PC) 2 = .ok (m.registers.read REG_PC + 2) from by
        unfold checkedAdd; rw [if_pos hpc]]
  simp only []
  rw [hw]

/-- Claim C3, witness: the amended theorem applied to the machine whose word
at PC has selector `0b1101`. -/
theorem step_unrecognized_selector_panics_witness :
    Machine.step mSelector13 = .error PanicReason.unreachableCode :=
  step_unrecognized_selector_panics mSelector13 (Or.inr rfl) (by decide)

/-- Claim C4, counterexample: loading a 2-word block at offset 65535 does not
fail with a recoverable `OutOfBoundsLoad` error — no such error exists in the
code — it panics with Rust's slice-index-out-of-range panic raised by
`self.ram[start..end]`. -/
theorem load_oob_cex :
    Machine.new.load [0, 0] 65535 = .error PanicReason.sliceIndexOutOfBounds :=
  rfl

/-- Claim C4, amended: whenever `offset + len(block)` exceeds the address
space, `Machine::load` panics with a slice-range panic (the check happens
before any word is copied, so memory is not partially mutated — but the
failure is a panic, not an error value returned to the caller). -/
theorem load_oob_panics (m : Machine) (block : List Nat) (offset : Nat)
    (h : MEMORY_SIZE < offset + block.length) :
    m.load block offset = .error PanicReason.sliceIndexOutOfBounds := by
  unfold Machine.load Memory.load
  rw [if_neg (by omega)]
  rfl

/-- Claim C4, witness: the amended theorem applied to a 3-word block at
offset 65534. -/
theorem load_oob_panics_witness :
    Machine.new.load [1, 2, 3] 65534 = .error PanicReason.sliceIndexOutOfBounds :=
  load_oob_panics Machine.new [1, 2, 3] 65534 (by decide)

/-- Claim C5 (code bug), evaluation at the failing input: the word `0x2080`
is `Load R0` with 9-bit offset field `0b010000000 = 128`, but
`read_pc_offset9` masks with `0x7f` (7 bits, no sign extension), giving
offset 0.  With memory holding 5 at address 2, 7 at address 129 (= PC+1+128)
and 9 at address 130 (= PC+2+128), the executed `Load` reads address
PC+2+0 = 2 and stores 5 in R0 — not the word at the claimed 9-bit
sign-extended target. -/
theorem load_offset_mask_bug :
    (Machine.step mLoadOff).map (fun m => m.registers.read 0) = .ok 5 ∧
    mLoadOff.mem.read 2 = 5 ∧ mLoadOff.mem.read 129 = 7 ∧ mLoadOff.mem.read 130 = 9 ∧
    (5 : Nat) ≠ 7 ∧ (5 : Nat) ≠ 9 ∧
    read_pc_offset9 0x2080 = 0 ∧ (0x2080 &&& 0x1FF) = 128 :=
  ⟨rfl, rfl, rfl, rfl, by decide, by decide, by decide, by decide⟩

/-- Claim C6 (code bug), evaluation at the failing input: `read_imme5`
zero-extends (`self & 0x1f`) instead of sign-extending, so with `R1 = 5` the
`AddImmediate` word `0x123F` (immediate field `0b11111`, which the claim
reads as −1) yields `R1 = 5 + 31 = 36`, not the claimed 4. -/
theorem addImmediate_sign_extension_bug :
    mAddImm.registers.read 1 = 5 ∧
    (Machine.step mAddImm).map (fun m => m.registers.read 1) = .ok 36 ∧
    (36 : Nat) ≠ 4 ∧
    read_imme5 0x123F = 31 :=
  ⟨rfl, rfl, by decide, by decide⟩

/-- Claim C7 (code bug), evaluation at the failing inputs: word `0x1020` has
bit 5 set and bit 4 clear, so per the claim it should decode as immediate
mode with src1 = bits 8-6 = 0; the code instead keys the mode on bit 4
(`use_immediate_mode`) and reads src1 from bits 7-5 (`read_sr1`), decoding it
as register-mode `Add` with src1 = 1.  Dually, `0x1010` (bit 4 set, bit 5
clear) decodes as `AddImmediate`. -/
theorem add_field_layout_bug :
    ((0x1020 >>> 5) % 2 = 1 ∧ (0x1020 >>> 4) % 2 = 0 ∧
      Opcode.fromWord 0x1020 = some (.Add 0 1 0) ∧ (0x1020 >>> 6) &&& 0x07 = 0) ∧
    ((0x1010 >>> 5) % 2 = 0 ∧ (0x1010 >>> 4) % 2 = 1 ∧
      Opcode.fromWord 0x1010 = some (.AddImmediate 0 0 16)) :=
  ⟨⟨by decide, by decide, rfl, by decide⟩, ⟨by decide, by decide, rfl⟩⟩

/-- Claim C8, counterexample: with `R2 = 3`, `R3 = 4` and COND initially 0,
`Add R1, R2, R3` produces `R1 = 7` but leaves COND = 0 — no flag bit is set,
contradicting "COND == Positive with exactly one of the three flag bits
set". -/
theorem cond_update_cex :
    (Machine.step mAdd).map
        (fun m => (m.registers.read 1, m.registers.read REG_COND)) = .ok (7, 0) ∧
    mAdd.registers.read REG_COND = 0 ∧
    Nat.testBit 0 0 = false ∧ Nat.testBit 0 1 = false ∧ Nat.testBit 0 2 = false :=
  ⟨rfl, rfl, by decide, by decide, by decide⟩

/-- Claim C8, amended: `step` never writes the COND register — every
successful step leaves COND exactly as it was (the only registers ever
written are PC and a destination register drawn from a 3-bit field, hence
< 8). -/
theorem step_preserves_cond (m m' : Machine) (h : Machine.step m = .ok m') :
    m'.registers.read REG_COND = m.registers.read REG_COND := by
  obtain ⟨-, hc⟩ := step_ok_inv h
  rcases hc with ⟨dr, sr1, sr2, hop, rfl⟩ | ⟨dr, sr1, imm5, hop, rfl⟩ |
    ⟨dr, off, hop, rfl⟩ | ⟨sr, off, hop, rfl⟩
  · have hdr : dr < 8 := (fromWord_Add_inv hop).1 ▸ read_dr_lt
    simp only [RegisterCluster.read, RegisterCluster.write, REG_COND, REG_PC]
    rw [if_neg (by omega), if_neg (by decide)]
  · have hdr : dr < 8 := (fromWord_AddImmediate_inv hop).1 ▸ read_dr_lt
    simp only [RegisterCluster.read, RegisterCluster.write, REG_COND, REG_PC]
    rw [if_neg (by omega), if_neg (by decide)]
  · have hdr : dr < 8 := (fromWord_Load_inv hop).1 ▸ read_dr_lt
    simp only [RegisterCluster.read, RegisterCluster.write, REG_COND, REG_PC]
    rw [if_neg (by omega), if_neg (by decide)]
  · simp only [RegisterCluster.read, RegisterCluster.write, REG_COND, REG_PC]
    rw [if_neg (by decide)]

/-- Claim C8, witness: the amended theorem applied to the concrete `Add`
machine. -/
theorem step_preserves_cond_witness :
    mAddStepped.registers.read REG_COND = mAdd.registers.read REG_COND :=
  step_preserves_cond mAdd mAddStepped rfl

/-- Claim C9 (code bug), evaluation at the failing input: with
`R2 = R3 = 0x8000`, `Add R1, R2, R3` panics with an arithmetic-overflow
panic (Rust's plain `+` on `u16` in a debug build) instead of wrapping to
`(0x8000 + 0x8000) % 2^16 = 0` as the claim requires. -/
theorem add_overflow_panic :
    Machine.step mOverflow = .error PanicReason.arithmeticOverflow ∧
    (0x8000 + 0x8000) % MEMORY_SIZE = 0 :=
  ⟨rfl, by decide⟩

/-- Claim C10: frame property of `step` on the implemented opcodes.  For a
word decoding to `Add`, `AddImmediate` or `Load`, a successful step leaves
every memory word unchanged and every register other than PC and the
destination register unchanged; for a word decoding to `Store`, it leaves
every register other than PC unchanged, writes `R[sr]` to exactly the one
memory word at `PC + 2 + offset`, and leaves every other memory word
unchanged. -/
theorem step_frame (m m' : Machine) (h : Machine.step m = .ok m') :
    (∀ dr sr1 sr2,
      Opcode.fromWord (m.mem.read (m.registers.read REG_PC)) = some (.Add dr sr1 sr2) →
      (∀ a, m'.mem.read a = m.mem.read a) ∧
      ∀ r, r ≠ REG_PC → r ≠ dr → m'.registers.read r = m.registers.read r) ∧
    (∀ dr sr1 imm5,
      Opcode.fromWord (m.mem.read (m.registers.read REG_PC)) = some (.AddImmediate dr sr1 imm5) →
      (∀ a, m'.mem.read a = m.mem.read a) ∧
      ∀ r, r ≠ REG_PC → r ≠ dr → m'.registers.read r = m.registers.read r) ∧
    (∀ dr off,
      Opcode.fromWord (m.mem.read (m.registers.read REG_PC)) = some (.Load dr off) →
      (∀ a, m'.mem.read a = m.mem.read a) ∧
      ∀ r, r ≠ REG_PC → r ≠ dr → m'.registers.read r = m.registers.read r) ∧
    (∀ sr off,
      Opcode.fromWord (m.mem.read (m.registers.read REG_PC)) = some (.Store sr off) →
      (∀ r, r ≠ REG_PC → m'.registers.read r = m.registers.read r) ∧
      (∀ b, b ≠ m.registers.read REG_PC + 2 + off → m'.mem.read b = m.mem.read b) ∧
      m'.mem.read (m.registers.read REG_PC + 2 + off) = m.registers.read sr) := by
  obtain ⟨-, hc⟩ := step_ok_inv h
  rcases hc with ⟨dr, sr1, sr2, hop, rfl⟩ | ⟨dr, sr1, imm5, hop, rfl⟩ |
    ⟨dr, off, hop, rfl⟩ | ⟨sr, off, hop, rfl⟩
  · refine ⟨?_, ?_, ?_, ?_⟩
    · intro dr' sr1' sr2' h'
      rw [hop] at h'
      simp at h'
      obtain ⟨rfl, -, -⟩ := h'
      refine ⟨fun a => rfl, ?_⟩
      intro r hr8 hrdr
      simp only [RegisterCluster.read, RegisterCluster.write, REG_PC] at hr8 ⊢
      rw [if_neg hrdr, if_neg hr8]
    · intro dr' sr1' imm5' h'
      rw [hop] at h'
      simp at h'
    · intro dr' off' h'
      rw [hop] at h'
      simp at h'
    · intro sr' off' h'
      rw [hop] at h'
      simp at h'
  · refine ⟨?_, ?_, ?_, ?_⟩
    · intro dr' sr1' sr2' h'
      rw [hop] at h'
      simp at h'
    · intro dr' sr1' imm5' h'
      rw [hop] at h'
      simp at h'
      obtain ⟨rfl, -, -⟩ := h'
      refine ⟨fun a => rfl, ?_⟩
      intro r hr8 hrdr
      simp only [RegisterCluster.read, RegisterCluster.write, REG_PC] at hr8 ⊢
      rw [if_neg hrdr, if_neg hr8]
    · intro dr' off' h'
      rw [hop] at h'
      simp at h'
    · intro sr' off' h'
      rw [hop] at h'
      simp at h'
  · refine ⟨?_, ?_, ?_, ?_⟩
    · intro dr' sr1' sr2' h'
      rw [hop] at h'
      simp at h'
    · intro dr' sr1' imm5' h'
      rw [hop] at h'
      simp at h'
    · intro dr' off' h'
      rw [hop] at h'
      simp at h'
      obtain ⟨rfl, -⟩ := h'
      refine ⟨fun a => rfl, ?_⟩
      intro r hr8 hrdr
      simp only [RegisterCluster.read, RegisterCluster.write, REG_PC] at hr8 ⊢
      rw [if_neg hrdr, if_neg hr8]
    · intro sr' off' h'
      rw [hop] at h'
      simp at h'
  · refine ⟨?_, ?_, ?_, ?_⟩
    · intro dr' sr1' sr2' h'
      rw [hop] at h'
      simp at h'
    · intro dr' sr1' imm5' h'
      rw [hop] at h'
      simp at h'
    · intro dr' off' h'
      rw [hop] at h'
      simp at h'
    · intro sr' off' h'
      rw [hop] at h'
      simp at h'
      obtain ⟨rfl, rfl⟩ := h'
      have hsr : sr < 8 := (fromWord_Store_inv hop).1 ▸ read_dr_lt
      refine ⟨?_, ?_, ?_⟩
      · intro r hr8
        simp only [RegisterCluster.read, RegisterCluster.write, REG_PC] at hr8 ⊢
        rw [if_neg hr8]
      · intro b hb
        simp only [Memory.read, Memory.write]
        rw [if_neg hb]
      · simp only [Memory.read, Memory.write, RegisterCluster.read,
          RegisterCluster.write, REG_PC]
        rw [if_pos trivial, if_neg (by omega)]

/-- Claim C10, witness: the frame theorem applied to the concrete `Add`
machine, instantiated at memory address 123 and register R5. -/
theorem step_frame_witness :
    mAddStepped.mem.read 123 = mAdd.mem.read 123 ∧
    mAddStepped.registers.read 5 = mAdd.registers.read 5 :=
  ⟨((step_frame mAdd mAddStepped rfl).1 1 2 3 rfl).1 123,
   ((step_frame mAdd mAddStepped rfl).1 1 2 3 rfl).2 5 (by decide) (by decide)⟩

end LC3
